import Mathlib

/-!
Verification of the Action Center task-triage core.

Shallow embedding notes:
* Calendar dates are modelled as `Nat` day indices.  The source stores dates
  as `YYYY-MM-DD` strings and compares them lexicographically; on well-formed
  dates that order coincides with chronological order, and `shiftDays(d, n)`
  corresponds to `d + n` in day-index space.
* Prisma calls are embedded as pure state transformers on a `DB` record;
  `db.$transaction([...])` is all-or-nothing, so a failing transaction is an
  `Except.error` that leaves the caller's state untouched.
* Route handlers return `Response.json(...)`/`errorResponse(msg, status)`;
  we embed the error path as `ApiErr` carrying the message and HTTP status.
-/

namespace AC

/-- A task row, as in the `Task` type of the UI and the Prisma schema
(`id`, `title`, `notes`, `project`, `status`, `due_date`, `snoozed_until`,
`source`).  `created_at` / `updated_at` are omitted: no claim mentions them. -/
structure Task where
  id : Nat
  title : String
  notes : Option String
  project : String
  status : String
  due_date : Option Nat
  snoozed_until : Option Nat
  source : String
deriving DecidableEq, Repr

/-- A project row (`id`, `name`); `task_count` is derived at read time. -/
structure Project where
  id : Nat
  name : String
deriving DecidableEq, Repr

/-- The persistent store: project rows, task rows, and the id generator. -/
structure DB where
  projects : List Project
  tasks : List Task
  nextId : Nat
deriving DecidableEq, Repr

/-- `VALID_STATUSES` from `api-helpers`. -/
def VALID_STATUSES : List String := ["pending", "in_progress", "done", "snoozed"]

/-- JS `String.prototype.trim()`: strip leading and trailing whitespace.
Defined over the character list so that it reduces in the kernel
(`String.trim` in the library does not). -/
def jsTrim (s : String) : String :=
  ⟨((s.data.dropWhile Char.isWhitespace).reverse.dropWhile
      Char.isWhitespace).reverse⟩

namespace Triage

/-- `UpcomingTab`'s `overdue` filter:
`t.status !== "done" && t.due_date !== null && t.due_date < today`. -/
def overdue (today : Nat) (t : Task) : Bool :=
  t.status ≠ "done" &&
    match t.due_date with
    | some d => d < today
    | none => false

/-- `UpcomingTab`'s `dueToday` filter:
`t.status !== "done" && t.due_date === today`. -/
def dueToday (today : Nat) (t : Task) : Bool :=
  t.status ≠ "done" && t.due_date = some today

/-- `UpcomingTab`'s `upcoming` filter:
`t.status !== "done" && t.due_date !== null && t.due_date > today &&
 t.due_date <= todayPlus6` where `todayPlus6 = shiftDays(today, 6)`. -/
def upcoming (today : Nat) (t : Task) : Bool :=
  t.status ≠ "done" &&
    match t.due_date with
    | some d => today < d && d ≤ today + 6
    | none => false

/-- `ScheduledTab`'s filter:
`t.status !== "done" && t.due_date !== null && t.due_date > todayPlus7`
where `todayPlus7 = shiftDays(today, 7)`. -/
def scheduled (today : Nat) (t : Task) : Bool :=
  t.status ≠ "done" &&
    match t.due_date with
    | some d => today + 7 < d
    | none => false

/-- `CompletedTab`'s filter: `t.status === "done"`. -/
def completed (t : Task) : Bool :=
  t.status = "done"

/-- `UnscheduledTab`'s filter: `t.status !== "done" && !t.due_date`. -/
def unscheduled (t : Task) : Bool :=
  t.status ≠ "done" && t.due_date = none

/-- How many of the six bucket predicates hold for a task on a given day. -/
def bucketCount (today : Nat) (t : Task) : Nat :=
  (if overdue today t then 1 else 0) +
  (if dueToday today t then 1 else 0) +
  (if upcoming today t then 1 else 0) +
  (if scheduled today t then 1 else 0) +
  (if completed t then 1 else 0) +
  (if unscheduled t then 1 else 0)

end Triage

/-- An `errorResponse(message, status)` payload: the JSON error message and
the HTTP status code. -/
structure ApiErr where
  message : String
  status : Nat
deriving DecidableEq, Repr

/-- The `UNCATEGORISED` sentinel name from the project delete route. -/
def UNCATEGORISED : String := "Uncategorised"

/-- `resolveSnooze` from `api-helpers`: if the task is `snoozed` and
`snoozed_until` is present and strictly before today, view it as `pending`;
otherwise return it unchanged.  (The source compares ISO date strings with
`<`; day indices preserve that order.) -/
def resolveSnooze (today : Nat) (t : Task) : Task :=
  if t.status == "snoozed" &&
      (match t.snoozed_until with
       | some s => s < today
       | none => false) then
    { t with status := "pending" }
  else t

/-- `db.project.upsert({ where: { name }, update: {}, create: { name } })`:
return the project with this name if one exists (updating nothing), else
create one with a fresh id. -/
def ensureExists (name : String) (db : DB) : Project × DB :=
  match db.projects.find? (fun p => p.name == name) with
  | some p => (p, db)
  | none =>
      let p : Project := ⟨db.nextId, name⟩
      (p, { db with projects := db.projects ++ [p], nextId := db.nextId + 1 })

/-- POST `/api/projects`: `!name || name.trim() === ""` is a 400; then
`db.project.create({ data: { name: name.trim() } })`, where a `P2002`
unique-constraint failure surfaces as `Project "<name>" already exists`
with status 409 (note: the raw, untrimmed name is interpolated). -/
def createProject (name : Option String) (db : DB) : Except ApiErr (Project × DB) :=
  match name with
  | none => .error ⟨"name is required", 400⟩
  | some n =>
    if n == "" || jsTrim n == "" then .error ⟨"name is required", 400⟩
    else if db.projects.any (fun p => p.name == jsTrim n) then
      .error ⟨"Project \"" ++ n ++ "\" already exists", 409⟩
    else
      let p : Project := ⟨db.nextId, jsTrim n⟩
      .ok (p, { db with projects := db.projects ++ [p], nextId := db.nextId + 1 })

/-- PATCH `/api/projects/[id]` (rename): validates the name, 404s on a
missing project, then runs one `db.$transaction` updating the project's
name to `name.trim()` and every task whose `project` equals the *old* name
(`existing.name`, read before the mutation).  A `P2002` collision with a
*different* project's name aborts the whole transaction (all-or-nothing)
and surfaces `Project name "<name>" already exists`, 409. -/
def renameProject (id : Nat) (name : Option String) (db : DB) :
    Except ApiErr (Project × DB) :=
  match name with
  | none => .error ⟨"name is required", 400⟩
  | some n =>
    if n == "" || jsTrim n == "" then .error ⟨"name is required", 400⟩
    else
      match db.projects.find? (fun p => p.id == id) with
      | none => .error ⟨"Project not found", 404⟩
      | some existing =>
        if db.projects.any (fun p => p.id != id && p.name == jsTrim n) then
          .error ⟨"Project name \"" ++ n ++ "\" already exists", 409⟩
        else
          .ok ({ existing with name := jsTrim n },
            { db with
              projects := db.projects.map
                (fun p => if p.id == id then { p with name := jsTrim n } else p),
              tasks := db.tasks.map
                (fun t => if t.project == existing.name then
                    { t with project := jsTrim n } else t) })

/-- DELETE `/api/projects/[id]`: 404 on a missing project; otherwise upsert
the `Uncategorised` sentinel, then one `db.$transaction` reassigning every
task under the deleted project's name to `Uncategorised` and deleting the
project row. -/
def deleteProject (id : Nat) (db : DB) : Except ApiErr DB :=
  match db.projects.find? (fun p => p.id == id) with
  | none => .error ⟨"Project not found", 404⟩
  | some project =>
    let db1 := (ensureExists UNCATEGORISED db).2
    .ok { db1 with
          projects := db1.projects.filter (fun p => p.id != id),
          tasks := db1.tasks.map
            (fun t => if t.project == project.name then
                { t with project := UNCATEGORISED } else t) }

/-- POST `/api/tasks`: 400 when title or project is missing or blank after
trim; otherwise upsert the trimmed project name and create the task with
trimmed title/project, `notes ?? null`, `due_date ?? null`, and
`source === "claude" ? "claude" : "manual"`.  The `status` column is not
set by the route; the schema default (`pending`) applies. -/
def createTask (title project notes : Option String) (due_date : Option Nat)
    (source : Option String) (db : DB) : Except ApiErr (Task × DB) :=
  match title with
  | none => .error ⟨"title is required", 400⟩
  | some ti =>
    if ti == "" || jsTrim ti == "" then .error ⟨"title is required", 400⟩
    else
      match project with
      | none => .error ⟨"project is required", 400⟩
      | some pr =>
        if pr == "" || jsTrim pr == "" then .error ⟨"project is required", 400⟩
        else
          let db1 := (ensureExists (jsTrim pr) db).2
          let t : Task :=
            { id := db1.nextId, title := jsTrim ti, notes := notes,
              project := jsTrim pr, status := "pending", due_date := due_date,
              snoozed_until := none,
              source := if source == some "claude" then "claude" else "manual" }
          .ok (t, { db1 with tasks := db1.tasks ++ [t], nextId := db1.nextId + 1 })

/-- The PATCH `/api/tasks/[id]` body: `undefined` (i.e. `none`) means the
field was not supplied; the date fields may be supplied as `null` to clear
them, hence the nested `Option`. -/
structure TaskPatch where
  title : Option String := none
  notes : Option (Option String) := none
  project : Option String := none
  status : Option String := none
  due_date : Option (Option Nat) := none
  snoozed_until : Option (Option Nat) := none
deriving DecidableEq, Repr

/-- The `...(field !== undefined ? { field } : {})` spreads of the task
PATCH route: apply exactly the supplied fields. -/
def applyPatch (u : TaskPatch) (t : Task) : Task :=
  { t with
    title := u.title.getD t.title,
    notes := u.notes.getD t.notes,
    project := u.project.getD t.project,
    status := u.status.getD t.status,
    due_date := u.due_date.getD t.due_date,
    snoozed_until := u.snoozed_until.getD t.snoozed_until }

/-- The task PATCH route's `if (project)` upsert: run the project upsert
only under JS truthiness, i.e. skipped when the field is absent *or the
empty string*. -/
def patchProjectUpsert (u : TaskPatch) (db : DB) : DB :=
  match u.project with
  | some p => if p == "" then db else (ensureExists p db).2
  | none => db

/-- The body of the task PATCH route after status validation: the
conditional project upsert, then 404 when the task id does not exist (the
upsert, already performed, persists — hence the route returns the error
alongside the post-upsert state); otherwise apply the supplied fields and
return the task through `resolveSnooze`. -/
def updateTaskBody (today : Nat) (id : Nat) (u : TaskPatch) (db : DB) :
    Except ApiErr Task × DB :=
  match (patchProjectUpsert u db).tasks.find? (fun t => t.id == id) with
  | none => (.error ⟨"Task not found", 404⟩, patchProjectUpsert u db)
  | some t =>
    (.ok (resolveSnooze today (applyPatch u t)),
      { patchProjectUpsert u db with
        tasks := (patchProjectUpsert u db).tasks.map
          (fun x => if x.id == id then applyPatch u t else x) })

/-- PATCH `/api/tasks/[id]`: reject an invalid supplied status (400), then
run `updateTaskBody`. -/
def updateTask (today : Nat) (id : Nat) (u : TaskPatch) (db : DB) :
    Except ApiErr Task × DB :=
  match u.status with
  | some s =>
    if !(VALID_STATUSES.contains s) then
      (.error ⟨"Invalid status. Must be one of: pending, in_progress, done, snoozed", 400⟩, db)
    else updateTaskBody today id u db
  | none => updateTaskBody today id u db

/-- GET `/api/tasks`: filter by project/status only when the query param is
truthy (absent or `""` means no filter), then map every row through
`resolveSnooze`.  (`orderBy created_at desc` is omitted: the claims are
order-independent.) -/
def listTasks (today : Nat) (project status : Option String) (db : DB) : List Task :=
  (db.tasks.filter (fun t =>
      (match project with
       | some p => p == "" || t.project == p
       | none => true) &&
      (match status with
       | some s => s == "" || t.status == s
       | none => true))).map (resolveSnooze today)

/-- The `groupBy`-derived map of GET `/api/projects`: the number of tasks
whose `project` equals the given name. -/
def task_count (db : DB) (name : String) : Nat :=
  (db.tasks.filter (fun t => t.project == name)).length

/-- GET `/api/projects`: every project row with its derived `task_count`
(the `orderBy name asc` is omitted: the claims are order-independent). -/
def listProjects (db : DB) : List (Project × Nat) :=
  db.projects.map (fun p => (p, task_count db p.name))

/-! ## Theorems -/

/-- C1: the six buckets used by the views never overlap, and they cover
every task except a non-done task whose `due_date` is exactly `today + 7`:
`upcoming` stops at `today + 6` while `scheduled` starts strictly after
`today + 7`, so that one date falls into no bucket. -/
theorem triage_partition_except_horizon_gap (today : Nat) (t : Task) :
    Triage.bucketCount today t ≤ 1 ∧
      ((t.status = "done" ∨ t.due_date ≠ some (today + 7)) →
        Triage.bucketCount today t = 1) := by
  obtain ⟨i, ti, no, pr, st, du, sn, so⟩ := t
  by_cases hs : st = "done"
  · subst hs
    cases du <;>
      simp [Triage.bucketCount, Triage.overdue, Triage.dueToday,
        Triage.upcoming, Triage.scheduled, Triage.completed,
        Triage.unscheduled]
  · cases du with
    | none =>
        simp [Triage.bucketCount, Triage.overdue, Triage.dueToday,
          Triage.upcoming, Triage.scheduled, Triage.completed,
          Triage.unscheduled, hs]
    | some d =>
        simp only [Triage.bucketCount, Triage.overdue, Triage.dueToday,
          Triage.upcoming, Triage.scheduled, Triage.completed,
          Triage.unscheduled, hs, Option.some.injEq, ne_eq,
          decide_not, Bool.and_eq_true, decide_eq_true_eq,
          Option.some_ne_none, Bool.not_eq_true]
        constructor
        · split_ifs <;> simp_all <;> omega
        · intro h
          split_ifs <;> simp_all <;> omega

/-- Witness for C1 at a concrete task: a pending task due today is in
exactly one bucket. -/
theorem triage_partition_except_horizon_gap_witness :
    Triage.bucketCount 3 ⟨1, "Ship", none, "Alpha", "pending", some 3, none, "manual"⟩ = 1 :=
  (triage_partition_except_horizon_gap 3
    ⟨1, "Ship", none, "Alpha", "pending", some 3, none, "manual"⟩).2
    (Or.inr (by decide))

/-- Counterexample to C1 as stated: a pending task with
`due_date = today + 7` (today is day 0, due day 7) satisfies none of the
six bucket predicates — the partition is not total — and it is a fixed
point of the snooze resolver, so this is not an artifact of snoozing. -/
theorem triage_partition_counterexample :
    Triage.bucketCount 0 ⟨1, "Ship", none, "Alpha", "pending", some 7, none, "manual"⟩ = 0 ∧
      resolveSnooze 0 ⟨1, "Ship", none, "Alpha", "pending", some 7, none, "manual"⟩ =
        ⟨1, "Ship", none, "Alpha", "pending", some 7, none, "manual"⟩ := by
  decide

/-- C2 amended: for a non-done task, `due_date = today + 6` classifies as
`upcoming` (and not `scheduled`), while `due_date = today + 7` is neither
`upcoming` nor `scheduled`. -/
theorem horizon_boundary (today : Nat) (t : Task) (hs : t.status ≠ "done") :
    (t.due_date = some (today + 6) →
        Triage.upcoming today t = true ∧ Triage.scheduled today t = false) ∧
      (t.due_date = some (today + 7) →
        Triage.upcoming today t = false ∧ Triage.scheduled today t = false) := by
  constructor
  · intro hd
    simp [Triage.upcoming, Triage.scheduled, hd, hs]
  · intro hd
    simp [Triage.upcoming, Triage.scheduled, hd, hs]

/-- Witness for C2 at a concrete task (today is day 10, due day 16). -/
theorem horizon_boundary_witness :
    Triage.upcoming 10 ⟨1, "Ship", none, "Alpha", "pending", some 16, none, "manual"⟩ = true ∧
      Triage.scheduled 10 ⟨1, "Ship", none, "Alpha", "pending", some 16, none, "manual"⟩ = false :=
  (horizon_boundary 10 ⟨1, "Ship", none, "Alpha", "pending", some 16, none, "manual"⟩
    (by decide)).1 (by decide)

/-- Counterexample to C2 as stated: a pending task with
`due_date = today + 7` (today is day 0, due day 7) is *not* classified as
`scheduled` (nor as `upcoming`): the `ScheduledTab` filter requires
`due_date > todayPlus7` strictly. -/
theorem horizon_boundary_counterexample :
    Triage.scheduled 0 ⟨1, "Ship", none, "Alpha", "pending", some 7, none, "manual"⟩ = false ∧
      Triage.upcoming 0 ⟨1, "Ship", none, "Alpha", "pending", some 7, none, "manual"⟩ = false := by
  decide

/-- C5: the snooze resolver returns a task identical to its input on every
field except `status`; a `snoozed` task whose `snoozed_until` is strictly
before today comes back `pending`; one snoozed until exactly today stays
`snoozed`; in all other cases the task is returned unchanged; and every
task returned by `listTasks` is the image of a stored task under the
resolver. -/
theorem resolveSnooze_spec (today : Nat) (t : Task) :
    ((resolveSnooze today t).id = t.id ∧
     (resolveSnooze today t).title = t.title ∧
     (resolveSnooze today t).notes = t.notes ∧
     (resolveSnooze today t).project = t.project ∧
     (resolveSnooze today t).due_date = t.due_date ∧
     (resolveSnooze today t).snoozed_until = t.snoozed_until ∧
     (resolveSnooze today t).source = t.source) ∧
    (∀ s, t.status = "snoozed" → t.snoozed_until = some s → s < today →
        (resolveSnooze today t).status = "pending") ∧
    (t.status = "snoozed" → t.snoozed_until = some today →
        (resolveSnooze today t).status = "snoozed") ∧
    ((t.status ≠ "snoozed" ∨ ∀ s, t.snoozed_until = some s → ¬ s < today) →
        resolveSnooze today t = t) ∧
    (∀ proj st (db : DB), ∀ r ∈ listTasks today proj st db,
        ∃ t0 ∈ db.tasks, r = resolveSnooze today t0) := by
  refine ⟨?_, ?_, ?_, ?_, ?_⟩
  · unfold resolveSnooze; split <;> simp
  · intro s h1 h2 h3
    simp [resolveSnooze, h1, h2, h3]
  · intro h1 h2
    simp [resolveSnooze, h1, h2]
  · intro h
    rcases h with h | h
    · simp [resolveSnooze, h]
    · unfold resolveSnooze
      cases hsu : t.snoozed_until with
      | none => simp [hsu]
      | some s => simp [hsu, h s hsu]
  · intro proj st db r hr
    simp only [listTasks, List.mem_map, List.mem_filter] at hr
    obtain ⟨t0, ⟨ht0, _⟩, heq⟩ := hr
    exact ⟨t0, ht0, heq.symm⟩

/-- Witness for C5 at a concrete task: snoozed until day 4 wakes on day 5;
snoozed until day 5 does not. -/
theorem resolveSnooze_spec_witness :
    (resolveSnooze 5 ⟨1, "S", none, "A", "snoozed", none, some 4, "manual"⟩).status = "pending" ∧
      (resolveSnooze 5 ⟨1, "S", none, "A", "snoozed", none, some 5, "manual"⟩).status = "snoozed" :=
  ⟨(resolveSnooze_spec 5 ⟨1, "S", none, "A", "snoozed", none, some 4, "manual"⟩).2.1
      4 rfl rfl (by decide),
   (resolveSnooze_spec 5 ⟨1, "S", none, "A", "snoozed", none, some 5, "manual"⟩).2.2.1
      rfl rfl⟩

/-- `ensureExists` leaves a project with the requested name in the store. -/
theorem ensureExists_mem (name : String) (db : DB) :
    ∃ q ∈ (ensureExists name db).2.projects, q.name = name := by
  cases hf : db.projects.find? (fun p => p.name == name) with
  | some p =>
      refine ⟨p, ?_, ?_⟩
      · simp [ensureExists, hf]
        exact List.mem_of_find?_eq_some hf
      · have h := List.find?_some hf
        simpa using h
  | none =>
      refine ⟨⟨db.nextId, name⟩, ?_, rfl⟩
      simp [ensureExists, hf]

/-- `ensureExists` never removes a project row. -/
theorem ensureExists_mono (name : String) (db : DB) (p : Project)
    (hp : p ∈ db.projects) : p ∈ (ensureExists name db).2.projects := by
  cases hf : db.projects.find? (fun q => q.name == name) <;>
    simp [ensureExists, hf, hp]

/-- `ensureExists` does not touch the task table. -/
theorem ensureExists_tasks (name : String) (db : DB) :
    (ensureExists name db).2.tasks = db.tasks := by
  cases hf : db.projects.find? (fun q => q.name == name) <;>
    simp [ensureExists, hf]

/-- C9: `ensureExists` is an idempotent upsert: given the store's unique
constraint (at most one project with the name), a second call in a row
returns the same project id, changes the store not at all, and after the
first call exactly one project with the name exists — no duplicate. -/
theorem ensureExists_idempotent (name : String) (db : DB)
    (huniq : (db.projects.filter (fun p => p.name == name)).length ≤ 1) :
    (ensureExists name (ensureExists name db).2).1.id = (ensureExists name db).1.id ∧
    (ensureExists name (ensureExists name db).2).2 = (ensureExists name db).2 ∧
    ((ensureExists name db).2.projects.filter (fun p => p.name == name)).length = 1 := by
  cases hf : db.projects.find? (fun p => p.name == name) with
  | some p =>
      have h1 : ensureExists name db = (p, db) := by simp [ensureExists, hf]
      have hp := List.find?_some hf
      have hmem : p ∈ db.projects.filter (fun q => q.name == name) :=
        List.mem_filter.mpr ⟨List.mem_of_find?_eq_some hf, hp⟩
      have hpos : 0 < (db.projects.filter (fun q => q.name == name)).length :=
        List.length_pos.mpr (List.ne_nil_of_mem hmem)
      refine ⟨?_, ?_, ?_⟩
      · rw [h1, h1]
      · rw [h1, h1]
      · rw [h1]; dsimp only; omega
  | none =>
      have hnil : db.projects.filter (fun p => p.name == name) = [] :=
        List.filter_eq_nil_iff.mpr (List.find?_eq_none.mp hf)
      have h1 : ensureExists name db =
          (⟨db.nextId, name⟩,
           { db with projects := db.projects ++ [⟨db.nextId, name⟩],
                     nextId := db.nextId + 1 }) := by
        simp [ensureExists, hf]
      have hf2 : (db.projects ++ [(⟨db.nextId, name⟩ : Project)]).find?
          (fun p => p.name == name) = some ⟨db.nextId, name⟩ := by
        rw [List.find?_append, hf]
        simp
      refine ⟨?_, ?_, ?_⟩
      · rw [h1]; simp [ensureExists, hf2]
      · rw [h1]; simp [ensureExists, hf2]
      · rw [h1]; simp [List.filter_append, hnil]

/-- Witness for C9 on an empty store. -/
theorem ensureExists_idempotent_witness :
    (ensureExists "X" (ensureExists "X" ⟨[], [], 0⟩).2).1.id =
        (ensureExists "X" (⟨[], [], 0⟩ : DB)).1.id ∧
      (ensureExists "X" (ensureExists "X" ⟨[], [], 0⟩).2).2 =
        (ensureExists "X" (⟨[], [], 0⟩ : DB)).2 ∧
      ((ensureExists "X" (⟨[], [], 0⟩ : DB)).2.projects.filter
          (fun p => p.name == "X")).length = 1 :=
  ensureExists_idempotent "X" ⟨[], [], 0⟩ (by decide)

/-- C10: a created task's `source` is `"claude"` exactly when the request
supplied the string `"claude"`, and `"manual"` in every other case, so the
stored value is always one of the two. -/
theorem createTask_source (ti pr no : Option String) (du : Option Nat)
    (so : Option String) (db : DB) (t : Task) (db' : DB)
    (hok : createTask ti pr no du so db = .ok (t, db')) :
    (t.source = "claude" ↔ so = some "claude") ∧
      (t.source = "claude" ∨ t.source = "manual") := by
  cases ti with
  | none => simp [createTask] at hok
  | some ti =>
    by_cases hti : (ti == "" || jsTrim ti == "") = true
    · simp [createTask, hti] at hok
    · cases pr with
      | none => simp [createTask, hti] at hok
      | some pr =>
        by_cases hpr : (pr == "" || jsTrim pr == "") = true
        · simp [createTask, hti, hpr] at hok
        · simp only [createTask, hti, hpr, Bool.false_eq_true, if_false,
            Except.ok.injEq, Prod.mk.injEq] at hok
          obtain ⟨ht, _⟩ := hok
          subst ht
          by_cases hso : so = some "claude"
          · simp [hso]
          · have : (so == some "claude") = false := by
              simpa using hso
            simp [this, hso]

/-- Witness for C10: a concrete `createTask` with `source = "other"`
stores a source that is `"claude"` iff `"other" = "claude"` (it is not),
and is one of the two allowed values. -/
theorem createTask_source_witness :
    ((Task.mk 1 "T" none "P" "pending" none none "manual").source = "claude" ↔
        (some "other" : Option String) = some "claude") ∧
      ((Task.mk 1 "T" none "P" "pending" none none "manual").source = "claude" ∨
        (Task.mk 1 "T" none "P" "pending" none none "manual").source = "manual") :=
  createTask_source (some "T") (some "P") none none (some "other")
    ⟨[], [], 0⟩
    ⟨1, "T", none, "P", "pending", none, none, "manual"⟩
    ⟨[⟨0, "P"⟩], [⟨1, "T", none, "P", "pending", none, none, "manual"⟩], 2⟩
    rfl

/-- The route guard `!s || s.trim() === ""` is false when the trimmed
string is non-empty. -/
theorem blankCheck_false (s : String) (h : jsTrim s ≠ "") :
    (s == "" || jsTrim s == "") = false := by
  have hs : s ≠ "" := by
    intro he
    subst he
    exact h rfl
  simp [hs, h]

/-- The route guard `!s || s.trim() === ""` is true when the trimmed
string is empty. -/
theorem blankCheck_true (s : String) (h : jsTrim s = "") :
    (s == "" || jsTrim s == "") = true := by
  simp [h]

/-- C8: `createTask` rejects a missing or blank-after-trim title or
project with a 400 validation error; otherwise it succeeds, the stored
task's project is the trimmed name, that name is non-empty and present in
the project table, and the task is stored. -/
theorem createTask_validation :
    (∀ pr no du so (db : DB),
        createTask none pr no du so db = .error ⟨"title is required", 400⟩) ∧
    (∀ ti pr no du so (db : DB), jsTrim ti = "" →
        createTask (some ti) pr no du so db = .error ⟨"title is required", 400⟩) ∧
    (∀ ti no du so (db : DB), jsTrim ti ≠ "" →
        createTask (some ti) none no du so db = .error ⟨"project is required", 400⟩) ∧
    (∀ ti pr no du so (db : DB), jsTrim ti ≠ "" → jsTrim pr = "" →
        createTask (some ti) (some pr) no du so db = .error ⟨"project is required", 400⟩) ∧
    (∀ ti pr no du so (db : DB), jsTrim ti ≠ "" → jsTrim pr ≠ "" →
        ∃ t db', createTask (some ti) (some pr) no du so db = .ok (t, db') ∧
          t.project = jsTrim pr ∧ t.project ≠ "" ∧
          (∃ q ∈ db'.projects, q.name = t.project) ∧ t ∈ db'.tasks) := by
  refine ⟨?_, ?_, ?_, ?_, ?_⟩
  · intro pr no du so db
    rfl
  · intro ti pr no du so db h
    simp [createTask, blankCheck_true ti h]
  · intro ti no du so db h
    simp [createTask, blankCheck_false ti h]
  · intro ti pr no du so db h1 h2
    simp [createTask, blankCheck_false ti h1, blankCheck_true pr h2]
  · intro ti pr no du so db h1 h2
    have heq : createTask (some ti) (some pr) no du so db =
        .ok (⟨(ensureExists (jsTrim pr) db).2.nextId, jsTrim ti, no, jsTrim pr,
              "pending", du, none,
              if so == some "claude" then "claude" else "manual"⟩,
          { (ensureExists (jsTrim pr) db).2 with
            tasks := (ensureExists (jsTrim pr) db).2.tasks ++
              [⟨(ensureExists (jsTrim pr) db).2.nextId, jsTrim ti, no, jsTrim pr,
                "pending", du, none,
                if so == some "claude" then "claude" else "manual"⟩],
            nextId := (ensureExists (jsTrim pr) db).2.nextId + 1 }) := by
      simp only [createTask, blankCheck_false ti h1, blankCheck_false pr h2,
        Bool.false_eq_true, if_false]
    exact ⟨_, _, heq, rfl, h2, ensureExists_mem (jsTrim pr) db,
      List.mem_append_right _ (List.mem_singleton_self _)⟩

/-- Witness for C8: a concrete successful `createTask`. -/
theorem createTask_validation_witness :
    ∃ t db', createTask (some " Ship ") (some " Alpha ") none (some 3) none
        (⟨[], [], 0⟩ : DB) = .ok (t, db') ∧
      t.project = jsTrim " Alpha " ∧ t.project ≠ "" ∧
      (∃ q ∈ db'.projects, q.name = t.project) ∧ t ∈ db'.tasks :=
  createTask_validation.2.2.2.2 " Ship " " Alpha " none (some 3) none
    ⟨[], [], 0⟩ (by decide) (by decide)

/-- C7: a duplicate project name is rejected with a 409 conflict, distinct
from the generic 500 failure, the offending (raw) name embedded in the
message: the second of two identical `createProject` calls conflicts, and
renaming a project to a different existing project's name conflicts. -/
theorem project_name_conflict :
    (∀ n (db : DB) p db', createProject (some n) db = .ok (p, db') →
      ∃ e, createProject (some n) db' = .error e ∧ e.status = 409 ∧
        e.status ≠ 500 ∧ ∃ pre post, e.message = pre ++ n ++ post) ∧
    (∀ id m (db : DB) pOld, jsTrim m ≠ "" →
      db.projects.find? (fun p => p.id == id) = some pOld →
      (∃ q ∈ db.projects, q.id ≠ id ∧ q.name = jsTrim m) →
      ∃ e, renameProject id (some m) db = .error e ∧ e.status = 409 ∧
        e.status ≠ 500 ∧ ∃ pre post, e.message = pre ++ m ++ post) := by
  constructor
  · intro n db p db' hok
    by_cases hb : (n == "" || jsTrim n == "") = true
    · simp [createProject, hb] at hok
    · rw [Bool.not_eq_true] at hb
      by_cases ha : db.projects.any (fun q => q.name == jsTrim n) = true
      · simp [createProject, hb, ha] at hok
      · rw [Bool.not_eq_true] at ha
        simp only [createProject, hb, ha, Bool.false_eq_true, if_false,
          Except.ok.injEq, Prod.mk.injEq] at hok
        obtain ⟨-, hdb⟩ := hok
        subst hdb
        refine ⟨⟨"Project \"" ++ n ++ "\" already exists", 409⟩, ?_, rfl,
          by norm_num, "Project \"", "\" already exists", rfl⟩
        have ha2 : (db.projects ++ [(⟨db.nextId, jsTrim n⟩ : Project)]).any
            (fun q => q.name == jsTrim n) = true := by
          simp [List.any_append]
        simp [createProject, hb, ha2]
  · intro id m db pOld hm hfind hex
    obtain ⟨q, hq, hqid, hqname⟩ := hex
    have hb : (m == "" || jsTrim m == "") = false := blankCheck_false m hm
    have ha : db.projects.any (fun p => p.id != id && p.name == jsTrim m) = true := by
      refine List.any_eq_true.mpr ⟨q, hq, ?_⟩
      simp [hqid, hqname]
    refine ⟨⟨"Project name \"" ++ m ++ "\" already exists", 409⟩, ?_, rfl,
      by norm_num, "Project name \"", "\" already exists", rfl⟩
    simp [renameProject, hb, hfind, ha]

/-- Witness for C7: `createProject("Gamma")` twice on an empty store. -/
theorem project_name_conflict_witness :
    ∃ e, createProject (some "Gamma") (⟨[⟨0, "Gamma"⟩], [], 1⟩ : DB) = .error e ∧
      e.status = 409 ∧ e.status ≠ 500 ∧
      ∃ pre post, e.message = pre ++ "Gamma" ++ post :=
  project_name_conflict.1 "Gamma" ⟨[], [], 0⟩ ⟨0, "Gamma"⟩
    ⟨[⟨0, "Gamma"⟩], [], 1⟩ rfl

/-- The referential invariant of the spec: every stored task's `project`
is non-empty and names an existing project row. -/
def Inv (db : DB) : Prop :=
  ∀ t ∈ db.tasks, t.project ≠ "" ∧ ∃ p ∈ db.projects, p.name = t.project

/-- `ensureExists` preserves the referential invariant. -/
theorem Inv_ensureExists (name : String) (db : DB) (h : Inv db) :
    Inv (ensureExists name db).2 := by
  intro t ht
  rw [ensureExists_tasks] at ht
  obtain ⟨hne, p, hp, he⟩ := h t ht
  exact ⟨hne, p, ensureExists_mono name db p hp, he⟩

/-- The conditional upsert preserves the referential invariant (for the
empty string it does nothing at all). -/
theorem Inv_patchProjectUpsert (u : TaskPatch) (db : DB) (hinv : Inv db) :
    Inv (patchProjectUpsert u db) := by
  unfold patchProjectUpsert
  split
  · split
    · exact hinv
    · exact Inv_ensureExists _ db hinv
  · exact hinv

/-- After the conditional upsert with a supplied non-empty project, a
project row with that name exists. -/
theorem patchProjectUpsert_mem (u : TaskPatch) (db : DB) (p : String)
    (hup : u.project = some p) (hpne : p ≠ "") :
    ∃ q ∈ (patchProjectUpsert u db).projects, q.name = p := by
  have hpb : (p == "") = false := by simpa using hpne
  unfold patchProjectUpsert
  rw [hup]
  simp only [hpb, Bool.false_eq_true, if_false]
  exact ensureExists_mem p db

/-- The task PATCH body preserves the referential invariant provided the
supplied project is not the empty string. -/
theorem updateTaskBody_inv (today id : Nat) (u : TaskPatch) (db : DB)
    (hinv : Inv db) (hproj : u.project ≠ some "") :
    Inv (updateTaskBody today id u db).2 := by
  have hdb1 : Inv (patchProjectUpsert u db) := Inv_patchProjectUpsert u db hinv
  unfold updateTaskBody
  cases hf : (patchProjectUpsert u db).tasks.find? (fun t => t.id == id) with
  | none =>
      simp only [hf]
      exact hdb1
  | some t =>
      simp only [hf]
      intro x hx
      simp only [List.mem_map] at hx
      obtain ⟨y, hy, hxy⟩ := hx
      by_cases hyid : (y.id == id) = true
      · rw [if_pos hyid] at hxy
        subst hxy
        have htmem := List.mem_of_find?_eq_some hf
        have htinv := hdb1 t htmem
        cases hup : u.project with
        | none =>
            have hpp : (applyPatch u t).project = t.project := by
              simp [applyPatch, hup]
            rw [hpp]
            exact htinv
        | some p =>
            have hpne : p ≠ "" := fun he => hproj (he ▸ hup)
            have hpp : (applyPatch u t).project = p := by
              simp [applyPatch, hup]
            rw [hpp]
            exact ⟨hpne, patchProjectUpsert_mem u db p hup hpne⟩
      · rw [if_neg hyid] at hxy
        subst hxy
        exact hdb1 y hy

/-- The task PATCH route preserves the referential invariant provided the
supplied project is not the empty string. -/
theorem updateTask_inv (today id : Nat) (u : TaskPatch) (db : DB)
    (hinv : Inv db) (hproj : u.project ≠ some "") :
    Inv (updateTask today id u db).2 := by
  unfold updateTask
  split
  · split
    · exact hinv
    · exact updateTaskBody_inv today id u db hinv hproj
  · exact updateTaskBody_inv today id u db hinv hproj

/-- C6 amended: a successful `createTask` preserves the referential
invariant, and `updateTask` preserves it *provided* the supplied project
is not the empty string (the route's `if (project)` truthiness check skips
the upsert for `""` yet still writes the empty string). -/
theorem writes_keep_project_invariant :
    (∀ ti pr no du so (db : DB) t db', Inv db →
        createTask ti pr no du so db = .ok (t, db') → Inv db') ∧
    (∀ today id u (db : DB), Inv db → u.project ≠ some "" →
        Inv (updateTask today id u db).2) := by
  constructor
  · intro ti pr no du so db t db' hinv hok
    cases ti with
    | none => simp [createTask] at hok
    | some ti =>
      by_cases hti : (ti == "" || jsTrim ti == "") = true
      · simp [createTask, hti] at hok
      · cases pr with
        | none => simp [createTask, hti] at hok
        | some pr =>
          by_cases hpr : (pr == "" || jsTrim pr == "") = true
          · simp [createTask, hti, hpr] at hok
          · have hprne : jsTrim pr ≠ "" := by
              intro he
              rw [blankCheck_true pr he] at hpr
              exact hpr rfl
            simp only [createTask, hti, hpr, Bool.false_eq_true, if_false,
              Except.ok.injEq, Prod.mk.injEq] at hok
            obtain ⟨-, hdb⟩ := hok
            subst hdb
            intro x hx
            rw [List.mem_append] at hx
            rcases hx with hx | hx
            · rw [ensureExists_tasks] at hx
              obtain ⟨hne, q, hq, he⟩ := hinv x hx
              exact ⟨hne, q, ensureExists_mono (jsTrim pr) db q hq, he⟩
            · rw [List.mem_singleton] at hx
              subst hx
              exact ⟨hprne, ensureExists_mem (jsTrim pr) db⟩
  · intro today id u db hinv hproj
    exact updateTask_inv today id u db hinv hproj

/-- Witness for C6: updating a task's project to a non-empty new name on a
store satisfying the invariant keeps the invariant. -/
theorem writes_keep_project_invariant_witness :
    Inv (updateTask 5 0 { project := some "B" }
      ⟨[⟨0, "A"⟩], [⟨0, "T", none, "A", "pending", none, none, "manual"⟩], 1⟩).2 :=
  writes_keep_project_invariant.2 5 0 { project := some "B" }
    ⟨[⟨0, "A"⟩], [⟨0, "T", none, "A", "pending", none, none, "manual"⟩], 1⟩
    (by
      intro t ht
      simp only [List.mem_singleton] at ht
      subst ht
      exact ⟨by decide, ⟨0, "A"⟩, by simp, rfl⟩)
    (by simp)

/-- Counterexample to C6 as stated: `updateTask` with `project: ""` skips
the upsert (JS truthiness) but still writes the empty string, leaving a
stored task whose project is empty and names no project row. -/
theorem update_empty_project_counterexample :
    (updateTask 5 0 { project := some "" }
        ⟨[⟨0, "A"⟩], [⟨0, "T", none, "A", "pending", none, none, "manual"⟩], 1⟩).2.tasks =
      [⟨0, "T", none, "", "pending", none, none, "manual"⟩] ∧
    ¬ Inv (updateTask 5 0 { project := some "" }
        ⟨[⟨0, "A"⟩], [⟨0, "T", none, "A", "pending", none, none, "manual"⟩], 1⟩).2 := by
  have h1 : (updateTask 5 0 { project := some "" }
      ⟨[⟨0, "A"⟩], [⟨0, "T", none, "A", "pending", none, none, "manual"⟩], 1⟩).2.tasks =
      [⟨0, "T", none, "", "pending", none, none, "manual"⟩] := by decide
  refine ⟨h1, ?_⟩
  intro h
  have h2 := h ⟨0, "T", none, "", "pending", none, none, "manual"⟩
    (by rw [h1]; exact List.mem_singleton_self _)
  exact h2.1 rfl

/-- C3: a successful rename returns the project under its new trimmed
name and, in the same all-or-nothing `db.$transaction`, rewrites every
task that referenced the old name (read before the mutation); uninvolved
tasks are untouched; no task is left under the old name; and the task
count carries over from the old name to the new.  A failing transaction is
an `Except.error`, which in this all-or-nothing embedding leaves the
caller's store untouched, so no partial rename is ever visible. -/
theorem renameProject_propagates (id : Nat) (n : String) (db db' : DB)
    (pOld p' : Project)
    (hfind : db.projects.find? (fun p => p.id == id) = some pOld)
    (hinv : Inv db)
    (hids : ∀ p ∈ db.projects, ∀ q ∈ db.projects, p.id = q.id → p = q)
    (hok : renameProject id (some n) db = .ok (p', db')) :
    p'.name = jsTrim n ∧
    ({ pOld with name := jsTrim n } ∈ db'.projects) ∧
    (∀ t ∈ db.tasks, t.project = pOld.name →
        { t with project := jsTrim n } ∈ db'.tasks) ∧
    (∀ t ∈ db.tasks, t.project ≠ pOld.name → t ∈ db'.tasks) ∧
    (pOld.name ≠ jsTrim n → ∀ x ∈ db'.tasks, x.project ≠ pOld.name) ∧
    task_count db' (jsTrim n) = task_count db pOld.name := by
  have hpe := List.find?_some hfind
  have hpid : pOld.id = id := by simpa using hpe
  have hpmem : pOld ∈ db.projects := List.mem_of_find?_eq_some hfind
  by_cases hb : (n == "" || jsTrim n == "") = true
  · simp [renameProject, hb] at hok
  · rw [Bool.not_eq_true] at hb
    by_cases ha : db.projects.any (fun p => p.id != id && p.name == jsTrim n) = true
    · simp [renameProject, hb, hfind, ha] at hok
    · rw [Bool.not_eq_true] at ha
      have hno : ∀ p ∈ db.projects, p.id = id ∨ p.name ≠ jsTrim n := by
        intro p hp
        by_contra hcon
        push_neg at hcon
        obtain ⟨hid1, hname1⟩ := hcon
        have hany : db.projects.any (fun p => p.id != id && p.name == jsTrim n) = true :=
          List.any_eq_true.mpr ⟨p, hp, by simp [hid1, hname1]⟩
        simp [ha] at hany
      simp only [renameProject, hb, hfind, ha, Bool.false_eq_true, if_false,
        Except.ok.injEq, Prod.mk.injEq] at hok
      obtain ⟨hp', hdb⟩ := hok
      subst hp'
      subst hdb
      refine ⟨rfl, ?_, ?_, ?_, ?_, ?_⟩
      · exact List.mem_map.mpr ⟨pOld, hpmem, by simp [hpid]⟩
      · intro t ht htp
        exact List.mem_map.mpr ⟨t, ht, by simp [htp]⟩
      · intro t ht htp
        exact List.mem_map.mpr ⟨t, ht, by simp [htp]⟩
      · intro hne x hx
        simp only [List.mem_map] at hx
        obtain ⟨y, hy, hxy⟩ := hx
        by_cases hyp : (y.project == pOld.name) = true
        · rw [if_pos hyp] at hxy
          subst hxy
          exact fun he => hne (by simpa using he.symm)
        · rw [if_neg hyp] at hxy
          subst hxy
          simpa using hyp
      · simp only [task_count, ← List.countP_eq_length_filter, List.countP_map]
        apply List.countP_congr
        intro t ht
        simp only [Function.comp_apply]
        by_cases htp : (t.project == pOld.name) = true
        · rw [if_pos htp]
          simp only [beq_iff_eq] at htp ⊢
          simp [htp]
        · rw [if_neg htp]
          simp only [beq_iff_eq] at htp ⊢
          constructor
          · intro he
            obtain ⟨-, q, hq, hqn⟩ := hinv t ht
            rcases hno q hq with hqid | hqname
            · have hq2 : q = pOld := hids q hq pOld hpmem (by rw [hqid, hpid])
              rw [hq2] at hqn
              exact absurd hqn.symm htp
            · rw [he] at hqn
              exact absurd hqn hqname
          · intro he
            exact absurd he htp

/-- Witness for C3: renaming Alpha (holding one task) to Beta on a
concrete store. -/
theorem renameProject_propagates_witness :
    (⟨0, "Beta"⟩ : Project).name = jsTrim "Beta" ∧
    ({ (⟨0, "Alpha"⟩ : Project) with name := jsTrim "Beta" } ∈
      (⟨[⟨0, "Beta"⟩], [⟨1, "Ship", none, "Beta", "pending", some 3, none,
        "manual"⟩], 2⟩ : DB).projects) ∧
    (∀ t ∈ (⟨[⟨0, "Alpha"⟩], [⟨1, "Ship", none, "Alpha", "pending", some 3,
        none, "manual"⟩], 2⟩ : DB).tasks,
      t.project = (⟨0, "Alpha"⟩ : Project).name →
        { t with project := jsTrim "Beta" } ∈
          (⟨[⟨0, "Beta"⟩], [⟨1, "Ship", none, "Beta", "pending", some 3, none,
            "manual"⟩], 2⟩ : DB).tasks) ∧
    (∀ t ∈ (⟨[⟨0, "Alpha"⟩], [⟨1, "Ship", none, "Alpha", "pending", some 3,
        none, "manual"⟩], 2⟩ : DB).tasks,
      t.project ≠ (⟨0, "Alpha"⟩ : Project).name →
        t ∈ (⟨[⟨0, "Beta"⟩], [⟨1, "Ship", none, "Beta", "pending", some 3,
          none, "manual"⟩], 2⟩ : DB).tasks) ∧
    ((⟨0, "Alpha"⟩ : Project).name ≠ jsTrim "Beta" →
      ∀ x ∈ (⟨[⟨0, "Beta"⟩], [⟨1, "Ship", none, "Beta", "pending", some 3,
          none, "manual"⟩], 2⟩ : DB).tasks,
        x.project ≠ (⟨0, "Alpha"⟩ : Project).name) ∧
    task_count (⟨[⟨0, "Beta"⟩], [⟨1, "Ship", none, "Beta", "pending", some 3,
        none, "manual"⟩], 2⟩ : DB) (jsTrim "Beta") =
      task_count (⟨[⟨0, "Alpha"⟩], [⟨1, "Ship", none, "Alpha", "pending",
        some 3, none, "manual"⟩], 2⟩ : DB) (⟨0, "Alpha"⟩ : Project).name :=
  renameProject_propagates 0 "Beta"
    ⟨[⟨0, "Alpha"⟩], [⟨1, "Ship", none, "Alpha", "pending", some 3, none,
      "manual"⟩], 2⟩
    ⟨[⟨0, "Beta"⟩], [⟨1, "Ship", none, "Beta", "pending", some 3, none,
      "manual"⟩], 2⟩
    ⟨0, "Alpha"⟩ ⟨0, "Beta"⟩ rfl (by unfold Inv; decide) (by decide) rfl

/-- C4 amended: deleting an existing project *not named `Uncategorised`*
leaves the sentinel in the store, removes the project row (gone from
`listProjects`), leaves no task under the deleted name, reassigns every
task that was under it to `Uncategorised`, and keeps other tasks
untouched.  The hypotheses are the store's key invariants: unique ids and
fresh id generation. -/
theorem deleteProject_reassigns (id : Nat) (db db' : DB) (project : Project)
    (hfind : db.projects.find? (fun p => p.id == id) = some project)
    (hname : project.name ≠ UNCATEGORISED)
    (hids : ∀ p ∈ db.projects, ∀ q ∈ db.projects, p.id = q.id → p = q)
    (hfresh : ∀ p ∈ db.projects, p.id < db.nextId)
    (hok : deleteProject id db = .ok db') :
    (∃ q ∈ db'.projects, q.name = UNCATEGORISED) ∧
    (∀ q ∈ db'.projects, q.id ≠ id) ∧
    (∀ x ∈ db'.tasks, x.project ≠ project.name) ∧
    (∀ t ∈ db.tasks, t.project = project.name →
        { t with project := UNCATEGORISED } ∈ db'.tasks) ∧
    (∀ t ∈ db.tasks, t.project ≠ project.name → t ∈ db'.tasks) := by
  have hpid : project.id = id := by simpa using List.find?_some hfind
  have hpmem : project ∈ db.projects := List.mem_of_find?_eq_some hfind
  simp only [deleteProject, hfind, Except.ok.injEq] at hok
  subst hok
  have hsent : ∃ q ∈ (ensureExists UNCATEGORISED db).2.projects,
      q.name = UNCATEGORISED ∧ q.id ≠ id := by
    cases hf : db.projects.find? (fun p => p.name == UNCATEGORISED) with
    | some q0 =>
        have hq0mem : q0 ∈ db.projects := List.mem_of_find?_eq_some hf
        have hq0name : q0.name = UNCATEGORISED := by
          simpa using List.find?_some hf
        refine ⟨q0, ?_, hq0name, ?_⟩
        · simp [ensureExists, hf, hq0mem]
        · intro hq0id
          have hq0p : q0 = project :=
            hids q0 hq0mem project hpmem (by rw [hq0id, hpid])
          rw [hq0p] at hq0name
          exact hname hq0name
    | none =>
        refine ⟨⟨db.nextId, UNCATEGORISED⟩, ?_, rfl, ?_⟩
        · simp [ensureExists, hf]
        · intro hnid
          have hnid2 : db.nextId = id := hnid
          have hlt := hfresh project hpmem
          omega
  obtain ⟨q, hq, hqname, hqid⟩ := hsent
  refine ⟨⟨q, ?_, hqname⟩, ?_, ?_, ?_, ?_⟩
  · exact List.mem_filter.mpr ⟨hq, by simpa using hqid⟩
  · intro r hr
    have hr2 := (List.mem_filter.mp hr).2
    simpa using hr2
  · intro x hx
    rw [ensureExists_tasks] at hx
    simp only [List.mem_map] at hx
    obtain ⟨y, hy, hxy⟩ := hx
    by_cases hyp : (y.project == project.name) = true
    · rw [if_pos hyp] at hxy
      subst hxy
      exact fun he => hname he.symm
    · rw [if_neg hyp] at hxy
      subst hxy
      simpa using hyp
  · intro t ht htp
    rw [ensureExists_tasks]
    exact List.mem_map.mpr ⟨t, ht, by simp [htp]⟩
  · intro t ht htp
    rw [ensureExists_tasks]
    exact List.mem_map.mpr ⟨t, ht, by simp [htp]⟩

/-- Witness for C4: deleting Alpha (holding one task) on a concrete store;
the sentinel is created and the task reassigned. -/
theorem deleteProject_reassigns_witness :
    (∃ q ∈ (⟨[⟨6, "Uncategorised"⟩], [⟨5, "T", none, "Uncategorised",
        "pending", none, none, "manual"⟩], 7⟩ : DB).projects,
      q.name = UNCATEGORISED) ∧
    (∀ q ∈ (⟨[⟨6, "Uncategorised"⟩], [⟨5, "T", none, "Uncategorised",
        "pending", none, none, "manual"⟩], 7⟩ : DB).projects, q.id ≠ 0) ∧
    (∀ x ∈ (⟨[⟨6, "Uncategorised"⟩], [⟨5, "T", none, "Uncategorised",
        "pending", none, none, "manual"⟩], 7⟩ : DB).tasks,
      x.project ≠ (⟨0, "Alpha"⟩ : Project).name) ∧
    (∀ t ∈ (⟨[⟨0, "Alpha"⟩], [⟨5, "T", none, "Alpha", "pending", none, none,
        "manual"⟩], 6⟩ : DB).tasks,
      t.project = (⟨0, "Alpha"⟩ : Project).name →
        { t with project := UNCATEGORISED } ∈
          (⟨[⟨6, "Uncategorised"⟩], [⟨5, "T", none, "Uncategorised",
            "pending", none, none, "manual"⟩], 7⟩ : DB).tasks) ∧
    (∀ t ∈ (⟨[⟨0, "Alpha"⟩], [⟨5, "T", none, "Alpha", "pending", none, none,
        "manual"⟩], 6⟩ : DB).tasks,
      t.project ≠ (⟨0, "Alpha"⟩ : Project).name →
        t ∈ (⟨[⟨6, "Uncategorised"⟩], [⟨5, "T", none, "Uncategorised",
          "pending", none, none, "manual"⟩], 7⟩ : DB).tasks) :=
  deleteProject_reassigns 0
    ⟨[⟨0, "Alpha"⟩], [⟨5, "T", none, "Alpha", "pending", none, none,
      "manual"⟩], 6⟩
    ⟨[⟨6, "Uncategorised"⟩], [⟨5, "T", none, "Uncategorised", "pending",
      none, none, "manual"⟩], 7⟩
    ⟨0, "Alpha"⟩ rfl (by decide) (by decide) (by decide) rfl

/-- Counterexample to C4 as stated: deleting the project *named
`Uncategorised`* itself (it exists, so the claim as stated covers it)
deletes the row while its task keeps referencing the name `Uncategorised`,
which afterwards names no project at all. -/
theorem deleteProject_sentinel_counterexample :
    deleteProject 0 ⟨[⟨0, "Uncategorised"⟩], [⟨5, "T", none, "Uncategorised",
        "pending", none, none, "manual"⟩], 6⟩ =
      .ok ⟨[], [⟨5, "T", none, "Uncategorised", "pending", none, none,
        "manual"⟩], 6⟩ ∧
    ((⟨[], [⟨5, "T", none, "Uncategorised", "pending", none, none,
        "manual"⟩], 6⟩ : DB).projects = []) ∧
    (∃ x ∈ (⟨[], [⟨5, "T", none, "Uncategorised", "pending", none, none,
        "manual"⟩], 6⟩ : DB).tasks, x.project = "Uncategorised") :=
  ⟨rfl, rfl, ⟨5, "T", none, "Uncategorised", "pending", none, none,
    "manual"⟩, List.mem_singleton_self _, rfl⟩

end AC
